import Mathlib

/-!
Shallow embedding of the totem pet coordinator (Go sources:
`totem.go`, `pet.go`, the command-protocol file and the `DefaultPet` /
`EggPet` files) together with proofs about the embedded operations.

Modelling conventions:
* Go `float64` state fields are modelled as exact rationals `ℚ`; the
  properties proved here (clamping, field preservation, comparisons
  against constants) are insensitive to floating-point rounding.
* `time.Time` values are modelled as rational timestamps (seconds);
  `time.Since(t)` at current time `now` is `now - t`.
* The Go map `Totem.pets` with its in-place mutation is modelled as an
  association list threaded functionally; the list order stands for one
  possible iteration order of the unordered Go map.  Pets are stored as
  values: the pointer aliasing of `*BasePet` is not modelled (no code
  path registers one pet under two keys).
* JSON decoding (`encoding/json`) and keypair generation are external
  library capabilities: the decode result of a message's content, and
  fresh keys, are passed as explicit parameters.
* `len` of a Go string is its byte length; the model uses the character
  count of the Lean string, which coincides on ASCII content.
* The `sync.RWMutex` critical sections are modelled by each registry
  operation being a single atomic function application.
-/

set_option autoImplicit false

namespace Totem

/-- `State` from `pet.go`: the pet's current status
(`Name`, `Happiness`, `Energy`, `LastFed`). -/
structure State where
  name : String
  happiness : ℚ
  energy : ℚ
  lastFed : ℚ
deriving Repr, DecidableEq

/-- `BasePet.Update` from `pet.go` (lines 81-90), the decay step:
`Energy = max(0, min(100, Energy - 0.001*dt))`, and — checking the
already-updated energy — if it is below 30,
`Happiness = max(0, min(100, Happiness - 0.002*dt))`, where `dt` is the
elapsed time since `LastFed` in seconds. -/
def updateState (now : ℚ) (s : State) : State :=
  let dt := now - s.lastFed
  let energy := max 0 (min 100 (s.energy - (1/1000) * dt))
  let happiness :=
    if energy < 30 then max 0 (min 100 (s.happiness - (2/1000) * dt))
    else s.happiness
  { s with energy := energy, happiness := happiness }

/-- `DefaultPet.handleStoreEvent`'s state mutation (default-pet file,
lines 103-119): `Energy = min(100, Energy+5)`,
`Happiness = min(100, Happiness+2)`, `LastFed = now`. -/
def feedState (now : ℚ) (s : State) : State :=
  { s with
    energy := min 100 (s.energy + 5)
    happiness := min 100 (s.happiness + 2)
    lastFed := now }

/-- One state operation applied to an active pet: a decay tick
(`Update`) or a feeding (`handleStoreEvent`), each at some time. -/
inductive PetOp where
  | update (now : ℚ)
  | feed (now : ℚ)
deriving Repr, DecidableEq

/-- Apply one pet operation. -/
def applyOp (s : State) (op : PetOp) : State :=
  match op with
  | .update now => updateState now s
  | .feed now => feedState now s

/-- Apply a sequence of pet operations, oldest first. -/
def applyOps (s : State) (ops : List PetOp) : State :=
  ops.foldl applyOp s

/-- The numeric-field invariant: both `Energy` and `Happiness`
lie in `[0, 100]`. -/
def State.inRange (s : State) : Prop :=
  0 ≤ s.energy ∧ s.energy ≤ 100 ∧ 0 ≤ s.happiness ∧ s.happiness ≤ 100

instance (s : State) : Decidable s.inRange := by
  unfold State.inRange; infer_instance

/-- A pet, the tagged union of the two lifecycle variants.  `isEgg` is
true exactly for `EggPet` values (the ones whose dynamic type satisfies
the `PetCreator` interface assertion); `ownerPubKey` is what
`GetOwnerPubKey` returns, and `createdAt` is the egg's creation time
(`EggPet.createdAt`; never consulted on the active variant, which has
no such field). -/
structure Pet where
  state : State
  privateKey : String
  publicKey : String
  ownerPubKey : String
  isEgg : Bool
  createdAt : ℚ
deriving Repr, DecidableEq

/-- `NewEggPet` from the egg-pet file (lines 21-36), minus the
fire-and-forget metadata publish: state name "Egg", happiness 100,
energy 100, last-fed now, with an externally generated keypair. -/
def NewEggPet (ownerPubKey priv pub : String) (now : ℚ) : Pet :=
  { state := ⟨"Egg", 100, 100, now⟩
    privateKey := priv
    publicKey := pub
    ownerPubKey := ownerPubKey
    isEgg := true
    createdAt := now }

/-- `EggPet.HandleNaming` (egg-pet file, lines 82-106), minus the
fire-and-forget metadata publish: builds a fresh `DefaultPet` whose
freshly generated base fields are then all overwritten with the egg's
keypair, owner, and numeric state; only the name is new. -/
def HandleNaming (p : Pet) (name : String) : Pet :=
  { state := ⟨name, p.state.happiness, p.state.energy, p.state.lastFed⟩
    privateKey := p.privateKey
    publicKey := p.publicKey
    ownerPubKey := p.ownerPubKey
    isEgg := false
    createdAt := p.createdAt }

/-- The registry map `Totem.pets`, as an association list. -/
abbrev Registry := List (String × Pet)

/-- Go map lookup `t.pets[k]`. -/
def regGet (r : Registry) (k : String) : Option Pet :=
  match r with
  | [] => none
  | (k', p) :: rest => if k' = k then some p else regGet rest k

/-- Go map assignment `t.pets[k] = p`: replace the entry if the key is
present, otherwise add one. -/
def regSet (r : Registry) (k : String) (p : Pet) : Registry :=
  match r with
  | [] => [(k, p)]
  | (k', p') :: rest =>
    if k' = k then (k, p) :: rest else (k', p') :: regSet rest k p

/-- The error cases of `Totem.NamePet` (`totem.go` lines 30-56):
`notFound` is "egg with pubkey %s not found", `invalidState` is
"pet with pubkey %s is not in egg state" (the failed `PetCreator`
type assertion), `unauthorized` is "egg with pubkey %s has no owner". -/
inductive NamePetError where
  | notFound
  | invalidState
  | unauthorized
deriving Repr, DecidableEq

/-- `Totem.NamePet` (`totem.go` lines 30-56): under the registry's
exclusive lock, look up `pubKey`; fail if absent, if the entry is not
an egg, or if the egg records no owner; otherwise hatch via
`HandleNaming` and overwrite the entry under the same key.  The
returned registry is the (possibly updated) map. -/
def NamePet (r : Registry) (pubKey name : String) :
    Registry × Except NamePetError Pet :=
  match regGet r pubKey with
  | none => (r, .error .notFound)
  | some egg =>
    if egg.isEgg = false then (r, .error .invalidState)
    else if egg.ownerPubKey = "" then (r, .error .unauthorized)
    else
      let namedPet := HandleNaming egg name
      (regSet r pubKey namedPet, .ok namedPet)

/-- `Totem.CreatePet` (`totem.go` lines 58-67): build a fresh egg and
register it under the egg's public key. -/
def CreatePet (r : Registry) (ownerPubKey priv pub : String) (now : ℚ) :
    Registry × Pet :=
  let egg := NewEggPet ownerPubKey priv pub now
  (regSet r egg.publicKey egg, egg)

/-- `Totem.RegisterPet` (`totem.go` lines 203-209): insert the pet
under its state's `Name`. -/
def RegisterPet (r : Registry) (p : Pet) : Registry :=
  regSet r p.state.name p

/-- `Totem.FindEggsByOwner` (`totem.go` lines 69-82): scan the registry
for egg-variant pets with the given owner, in iteration order. -/
def FindEggsByOwner (r : Registry) (owner : String) : List Pet :=
  (r.filter fun e => e.2.isEgg && e.2.ownerPubKey == owner).map Prod.snd

/-- A relay event (`nostr.Event`): the fields the coordinator reads. -/
structure Event where
  id : String
  pubKey : String
  createdAt : ℚ
  kind : Nat
  tags : List (List String)
  content : String
deriving Repr, DecidableEq

/-- `KindPetCommand` from the command file. -/
def KindPetCommand : Nat := 5910

/-- `TagCommand` from the command file. -/
def TagCommand : String := "c"

/-- `TagExecuteTool` from the command file. -/
def TagExecuteTool : String := "execute-tool"

/-- `CmdCreateEgg` from the command file. -/
def CmdCreateEgg : String := "create_egg"

/-- `CmdNamePet` from the command file. -/
def CmdNamePet : String := "name_pet"

/-- `ValidateCommandTag` from the command file (lines 38-45): some tag
has at least two elements, the first `"c"` and the second
`"execute-tool"`. -/
def ValidateCommandTag (tags : List (List String)) : Bool :=
  tags.any fun tag =>
    match tag with
    | t0 :: t1 :: _ => t0 == TagCommand && t1 == TagExecuteTool
    | _ => false

/-- A `json.RawMessage` of command parameters, represented by the
result of the external `encoding/json` decode: whether the raw bytes
are empty, whether they unmarshal successfully into the parameter
structs, and the decoded `pet_id` and `name` fields (a field absent
from the JSON decodes to `""`). -/
structure RawParams where
  isEmpty : Bool
  wellFormed : Bool
  petID : String
  name : String
deriving Repr, DecidableEq

/-- `NamePetParams` from the command file: decoded `pet_id`
(optional) and `name`. -/
structure NamePetParams where
  petID : String
  name : String
deriving Repr, DecidableEq

/-- `ParseCreateEggParams` from the command file (lines 57-65): empty
raw parameters are accepted without decoding; otherwise the decode must
succeed.  There are no fields to return. -/
def ParseCreateEggParams (raw : RawParams) : Except String Unit :=
  if raw.isEmpty then .ok ()
  else if raw.wellFormed then .ok ()
  else .error "invalid create_egg parameters"

/-- `ParseNamePetParams` from the command file (lines 68-79): the raw
parameters must decode, and the decoded `name` must be non-empty. -/
def ParseNamePetParams (raw : RawParams) : Except String NamePetParams :=
  if raw.wellFormed = false then .error "invalid name_pet parameters"
  else if raw.name = "" then .error "name parameter is required"
  else .ok ⟨raw.petID, raw.name⟩

/-- `CommandRequest` from the command file: the decoded content of a
command message.  `ParseCommand`'s JSON decoding is external; its
result is passed around as an `Option CommandRequest` (`none` for
malformed JSON). -/
structure CommandRequest where
  name : String
  parameters : RawParams
deriving Repr, DecidableEq

/-- `Totem.handleCreateEggCommand` (`totem.go` lines 114-127): parse
the (contentless) parameters, then create an egg owned by the event's
author.  Returns the updated registry and the handled flag. -/
def handleCreateEggCommand (r : Registry) (evt : Event) (raw : RawParams)
    (priv pub : String) (now : ℚ) : Registry × Bool :=
  match ParseCreateEggParams raw with
  | .error _ => (r, false)
  | .ok _ => ((CreatePet r evt.pubKey priv pub now).1, true)

/-- `Totem.handleNamePetCommand` (`totem.go` lines 129-180): parse the
parameters; with a `pet_id`, look it up and require an egg owned by the
event's author; without one, take the author's first egg.  On a
resolved target call `NamePet` with the target's public key; any
`NamePet` error is only logged.  Returns the updated registry and the
handled flag. -/
def handleNamePetCommand (r : Registry) (evt : Event) (raw : RawParams) :
    Registry × Bool :=
  match ParseNamePetParams raw with
  | .error _ => (r, false)
  | .ok params =>
    if params.petID ≠ "" then
      match regGet r params.petID with
      | none => (r, true)
      | some pet =>
        if pet.isEgg = false then (r, true)
        else if pet.ownerPubKey ≠ evt.pubKey then (r, true)
        else ((NamePet r pet.publicKey params.name).1, true)
    else
      match FindEggsByOwner r evt.pubKey with
      | [] => (r, true)
      | egg :: _ => ((NamePet r egg.publicKey params.name).1, true)

/-- `Totem.processTotemCommand` (`totem.go` lines 84-112): require the
reserved kind and the execute-tool tag, then dispatch on the parsed
command name; parse failures and unknown names return `false`
(not handled). -/
def processTotemCommand (r : Registry) (evt : Event)
    (parsed : Option CommandRequest) (priv pub : String) (now : ℚ) :
    Registry × Bool :=
  if evt.kind ≠ KindPetCommand then (r, false)
  else if ValidateCommandTag evt.tags = false then (r, false)
  else
    match parsed with
    | none => (r, false)
    | some cmd =>
      if cmd.name = CmdCreateEgg then
        handleCreateEggCommand r evt cmd.parameters priv pub now
      else if cmd.name = CmdNamePet then
        handleNamePetCommand r evt cmd.parameters
      else (r, false)

/-- Step 1 of `Totem.findTargetPet` (`totem.go` lines 275-285): walk
the event's tags in order; for each tag of shape `"p" :: key :: _`,
return the registry entry under `key` if present. -/
def pTagTarget (r : Registry) : List (List String) → Option (String × Pet)
  | [] => none
  | tag :: rest =>
    match tag with
    | t0 :: t1 :: _ =>
      if t0 = "p" then
        match regGet r t1 with
        | some p => some (t1, p)
        | none => pTagTarget r rest
      else pTagTarget r rest
    | _ => pTagTarget r rest

/-- `Totem.findTargetPet` (`totem.go` lines 271-310): (1) a pet named
by a `p` tag; (2) a pet owned by the event's author; (3) a non-egg pet;
(4) any pet; (5) none on an empty registry.  The returned key is the
registry key of the chosen entry. -/
def findTargetPet (r : Registry) (evt : Event) : Option (String × Pet) :=
  match pTagTarget r evt.tags with
  | some t => some t
  | none =>
    match r.find? (fun e => e.2.ownerPubKey == evt.pubKey) with
    | some e => some e
    | none =>
      match r.find? (fun e => !e.2.isEgg) with
      | some e => some e
      | none => r.head?

/-- The per-pet `handleStoreEvent` dispatch: `EggPet.handleStoreEvent`
(egg-pet file, lines 108-110) only logs and leaves the state untouched;
`DefaultPet.handleStoreEvent` applies `feedState`. -/
def petHandleStoreEvent (now : ℚ) (p : Pet) : Pet :=
  if p.isEgg then p else { p with state := feedState now p.state }

/-- The per-pet `handleRejectEvent` dispatch: `EggPet` always accepts;
`DefaultPet` (default-pet file, lines 192-206) rejects with the grumpy
reason when happiness is below 50 and the content length exceeds
250. -/
def petHandleRejectEvent (p : Pet) (evt : Event) : Bool × String :=
  if p.isEgg then (false, "")
  else if p.state.happiness < 50 ∧ 250 < evt.content.length then
    (true, "Pet " ++ p.state.name ++ " is grumpy and doesn't like long messages")
  else (false, "")

/-- `Totem.handleStoreEvent` (`totem.go` lines 215-230): try the
command path; if it reports handled, stop; otherwise resolve the
target pet and forward the event to its store handler (mutating that
pet's registry entry in place). -/
def totemHandleStoreEvent (r : Registry) (evt : Event)
    (parsed : Option CommandRequest) (priv pub : String) (now : ℚ) :
    Registry :=
  match processTotemCommand r evt parsed priv pub now with
  | (r1, true) => r1
  | (r1, false) =>
    match findTargetPet r1 evt with
    | none => r1
    | some t => regSet r1 t.1 (petHandleStoreEvent now t.2)

/-- `Totem.handleRejectEvent` (`totem.go` lines 259-268): delegate to
the resolved target's rejection policy; accept when there is no
target. -/
def totemHandleRejectEvent (r : Registry) (evt : Event) : Bool × String :=
  match findTargetPet r evt with
  | some t => petHandleRejectEvent t.2 evt
  | none => (false, "")

/-- Step-1 condition of target resolution: some `p` tag of the event
names a registered key. -/
def hasTaggedTarget (r : Registry) (evt : Event) : Prop :=
  ∃ tag ∈ evt.tags, ∃ k rest, tag = "p" :: k :: rest ∧ (regGet r k).isSome

/-- Sample egg owned by `"alice"`, mid-range numeric state. -/
def sampleEgg : Pet :=
  { state := ⟨"Egg", 70, 60, 5⟩
    privateKey := "sk-egg"
    publicKey := "pk-egg"
    ownerPubKey := "alice"
    isEgg := true
    createdAt := 5 }

/-- Sample egg with no recorded owner. -/
def sampleOrphanEgg : Pet :=
  { state := ⟨"Egg", 100, 100, 0⟩
    privateKey := "sk-orph"
    publicKey := "pk-orph"
    ownerPubKey := ""
    isEgg := true
    createdAt := 0 }

/-- Sample active pet owned by `"alice"`. -/
def sampleActive : Pet :=
  { state := ⟨"Rex", 40, 50, 0⟩
    privateKey := "sk-rex"
    publicKey := "pk-rex"
    ownerPubKey := "alice"
    isEgg := false
    createdAt := 0 }

/-- A second active pet that shares `sampleActive`'s state name. -/
def sampleActive2 : Pet :=
  { state := ⟨"Rex", 80, 90, 1⟩
    privateKey := "sk-rex2"
    publicKey := "pk-rex2"
    ownerPubKey := "bob"
    isEgg := false
    createdAt := 0 }

/-- A sample command-gated event authored by `"bob"`: reserved kind
5910 and the `["c", "execute-tool"]` tag. -/
def cmdEvt : Event :=
  { id := "evt-1"
    pubKey := "bob"
    createdAt := 7
    kind := 5910
    tags := [["c", "execute-tool"]]
    content := "command-body" }

/-- A sample ordinary event authored by `"carol"` that p-tags
`"pk-rex"`. -/
def pTagEvt : Event :=
  { id := "evt-2"
    pubKey := "carol"
    createdAt := 9
    kind := 1
    tags := [["e", "evt-0"], ["p", "pk-rex"]]
    content := "hello" }

end Totem

namespace Totem

theorem updateState_inRange (now : ℚ) (s : State) (h : s.inRange) :
    (updateState now s).inRange := by
  obtain ⟨-, -, hh0, hh1⟩ := h
  unfold updateState State.inRange
  dsimp only
  constructor
  · exact le_max_left 0 _
  refine ⟨max_le (by norm_num) (min_le_left _ _), ?_, ?_⟩
  · split
    · exact le_max_left 0 _
    · exact hh0
  · split
    · exact max_le (by norm_num) (min_le_left _ _)
    · exact hh1

theorem feedState_inRange (now : ℚ) (s : State) (h : s.inRange) :
    (feedState now s).inRange := by
  obtain ⟨he0, -, hh0, -⟩ := h
  unfold feedState State.inRange
  dsimp only
  refine ⟨le_min (by norm_num) (by linarith), min_le_left _ _,
    le_min (by norm_num) (by linarith), min_le_left _ _⟩

theorem applyOp_inRange (s : State) (op : PetOp) (h : s.inRange) :
    (applyOp s op).inRange := by
  cases op with
  | update now => exact updateState_inRange now s h
  | feed now => exact feedState_inRange now s h

/-- C1: for every entity, after any sequence of decay updates (`Update`)
and feed operations (`handleStoreEvent`), starting from a state whose
`Energy` and `Happiness` fields are within `[0,100]`, both fields remain
within `[0,100]`: each operation clamps both fields. -/
theorem claim_C1_state_fields_stay_clamped
    (s : State) (ops : List PetOp) (h : s.inRange) :
    (applyOps s ops).inRange := by
  induction ops generalizing s with
  | nil => exact h
  | cons op rest ih =>
    exact ih (applyOp s op) (applyOp_inRange s op h)

/-- Witness for C1 at a concrete state and concrete operation sequence. -/
theorem claim_C1_witness :
    (State.inRange ⟨"Rex", 100, 100, 0⟩) ∧
      (applyOps ⟨"Rex", 100, 100, 0⟩
        [.update 100000, .feed 100001, .update 200000]).inRange :=
  ⟨by decide, claim_C1_state_fields_stay_clamped _ _ (by decide)⟩

theorem regGet_regSet_self (r : Registry) (k : String) (p : Pet) :
    regGet (regSet r k p) k = some p := by
  induction r with
  | nil => simp [regSet, regGet]
  | cons e rest ih =>
    obtain ⟨k', p'⟩ := e
    by_cases h : k' = k
    · simp [regSet, regGet, h]
    · simp [regSet, regGet, h, ih]

theorem mem_of_regGet_eq_some {r : Registry} {k : String} {p : Pet}
    (h : regGet r k = some p) : (k, p) ∈ r := by
  induction r with
  | nil => simp [regGet] at h
  | cons e rest ih =>
    obtain ⟨k', p'⟩ := e
    by_cases hk : k' = k
    · simp [regGet, hk] at h
      subst hk h
      exact List.mem_cons_self _ _
    · simp [regGet, hk] at h
      exact List.mem_cons_of_mem _ (ih h)

/-- C2: naming a registered egg that has a recorded owner succeeds and
produces an active pet with the egg's public key, private key,
happiness, energy and last-fed values; the registry entry under the
same key is replaced by the new pet in the one atomic `NamePet` step,
and the entry is no longer an egg. -/
theorem claim_C2_hatching_preserves_identity_and_state
    (r : Registry) (key name : String) (egg : Pet)
    (hget : regGet r key = some egg) (hegg : egg.isEgg = true)
    (howner : egg.ownerPubKey ≠ "") :
    ∃ p : Pet,
      NamePet r key name = (regSet r key p, Except.ok p) ∧
      p.publicKey = egg.publicKey ∧
      p.privateKey = egg.privateKey ∧
      p.state.happiness = egg.state.happiness ∧
      p.state.energy = egg.state.energy ∧
      p.state.lastFed = egg.state.lastFed ∧
      p.isEgg = false ∧
      regGet (NamePet r key name).1 key = some p := by
  have hstep : NamePet r key name =
      (regSet r key (HandleNaming egg name), Except.ok (HandleNaming egg name)) := by
    unfold NamePet
    rw [hget]
    simp [hegg, howner]
  refine ⟨HandleNaming egg name, hstep, rfl, rfl, rfl, rfl, rfl, rfl, ?_⟩
  rw [hstep]
  exact regGet_regSet_self r key (HandleNaming egg name)

/-- Witness for C2: hatching a concrete registered egg. -/
theorem claim_C2_witness :
    ∃ p : Pet,
      NamePet [("pk-egg", sampleEgg)] "pk-egg" "Rex" =
        (regSet [("pk-egg", sampleEgg)] "pk-egg" p, Except.ok p) ∧
      p.publicKey = sampleEgg.publicKey ∧
      p.privateKey = sampleEgg.privateKey ∧
      p.state.happiness = sampleEgg.state.happiness ∧
      p.state.energy = sampleEgg.state.energy ∧
      p.state.lastFed = sampleEgg.state.lastFed ∧
      p.isEgg = false ∧
      regGet (NamePet [("pk-egg", sampleEgg)] "pk-egg" "Rex").1 "pk-egg" = some p :=
  claim_C2_hatching_preserves_identity_and_state
    [("pk-egg", sampleEgg)] "pk-egg" "Rex" sampleEgg
    (by decide) (by decide) (by decide)

/-- C3: `NamePet` fails with the not-found error when the key is
absent, with the invalid-state error when the entry is not an egg, and
with the unauthorized error when the egg records no owner; in each
failure case the returned registry is the unchanged input registry
(so every entity's state is unchanged). -/
theorem claim_C3_namePet_error_cases (r : Registry) (key name : String) :
    (regGet r key = none →
      NamePet r key name = (r, Except.error NamePetError.notFound)) ∧
    (∀ p, regGet r key = some p → p.isEgg = false →
      NamePet r key name = (r, Except.error NamePetError.invalidState)) ∧
    (∀ p, regGet r key = some p → p.isEgg = true → p.ownerPubKey = "" →
      NamePet r key name = (r, Except.error NamePetError.unauthorized)) := by
  refine ⟨?_, ?_, ?_⟩
  · intro h
    unfold NamePet
    rw [h]
  · intro p h hp
    unfold NamePet
    rw [h]
    simp [hp]
  · intro p h hp ho
    unfold NamePet
    rw [h]
    simp [hp, ho]

/-- Witness for C3: the three failure cases at concrete registries. -/
theorem claim_C3_witness :
    NamePet [] "pk" "Rex" = ([], Except.error NamePetError.notFound) ∧
    NamePet [("pk-rex", sampleActive)] "pk-rex" "Bo" =
      ([("pk-rex", sampleActive)], Except.error NamePetError.invalidState) ∧
    NamePet [("pk-orph", sampleOrphanEgg)] "pk-orph" "Bo" =
      ([("pk-orph", sampleOrphanEgg)], Except.error NamePetError.unauthorized) :=
  ⟨(claim_C3_namePet_error_cases [] "pk" "Rex").1 rfl,
   (claim_C3_namePet_error_cases [("pk-rex", sampleActive)] "pk-rex" "Bo").2.1
      sampleActive (by decide) (by decide),
   (claim_C3_namePet_error_cases [("pk-orph", sampleOrphanEgg)] "pk-orph" "Bo").2.2
      sampleOrphanEgg (by decide) (by decide) (by decide)⟩

/-- C7 counterexample: `RegisterPet` does not insert the pet under its
identity (public) key.  Registering `sampleActive` (public key
`"pk-rex"`, state name `"Rex"`) into the empty registry leaves nothing
under `"pk-rex"`; the entry appears under the state name `"Rex"`. -/
theorem claim_C7_counterexample :
    regGet (RegisterPet [] sampleActive) sampleActive.publicKey = none ∧
    regGet (RegisterPet [] sampleActive) sampleActive.state.name =
      some sampleActive := by
  decide

/-- C7 amended: `RegisterPet` inserts the pet under its state's `Name`
field (not its public key); registration never fails, and when two
pets with the same state name are registered in sequence, the later
registration overwrites the earlier entry. -/
theorem claim_C7_amended_register_by_name (r : Registry) (p q : Pet)
    (h : q.state.name = p.state.name) :
    regGet (RegisterPet r p) p.state.name = some p ∧
    regGet (RegisterPet (RegisterPet r p) q) p.state.name = some q := by
  constructor
  · exact regGet_regSet_self r p.state.name p
  · unfold RegisterPet
    rw [h]
    exact regGet_regSet_self _ p.state.name q

/-- Witness for C7's amended claim: two concrete pets named `"Rex"`. -/
theorem claim_C7_witness :
    regGet (RegisterPet [] sampleActive) sampleActive.state.name =
      some sampleActive ∧
    regGet (RegisterPet (RegisterPet [] sampleActive) sampleActive2)
      sampleActive.state.name = some sampleActive2 :=
  claim_C7_amended_register_by_name [] sampleActive sampleActive2 (by decide)

/-- C10: the registry-level `NamePet` performs no validation of the
name: an owned registered egg hatches even under the empty name, and
the resulting active pet's state name is `""`; the non-empty-name
requirement lives only in `ParseNamePetParams`, which rejects a decoded
`name` of `""`. -/
theorem claim_C10_no_name_validation_at_registry
    (r : Registry) (key : String) (egg : Pet) (raw : RawParams)
    (hget : regGet r key = some egg) (hegg : egg.isEgg = true)
    (howner : egg.ownerPubKey ≠ "")
    (hwf : raw.wellFormed = true) (hname : raw.name = "") :
    (∃ p, NamePet r key "" = (regSet r key p, Except.ok p) ∧
      p.state.name = "") ∧
    ParseNamePetParams raw = Except.error "name parameter is required" := by
  constructor
  · refine ⟨HandleNaming egg "", ?_, rfl⟩
    unfold NamePet
    rw [hget]
    simp [hegg, howner]
  · unfold ParseNamePetParams
    simp [hwf, hname]

/-- Witness for C10: a concrete owned egg and concrete raw parameters
with an empty decoded name. -/
theorem claim_C10_witness :
    (∃ p, NamePet [("pk-egg", sampleEgg)] "pk-egg" "" =
        (regSet [("pk-egg", sampleEgg)] "pk-egg" p, Except.ok p) ∧
      p.state.name = "") ∧
    ParseNamePetParams ⟨false, true, "pk-egg", ""⟩ =
      Except.error "name parameter is required" :=
  claim_C10_no_name_validation_at_registry
    [("pk-egg", sampleEgg)] "pk-egg" sampleEgg ⟨false, true, "pk-egg", ""⟩
    (by decide) (by decide) (by decide) rfl rfl

/-- C4: a `name_pet` command whose `pet_id` resolves to a registered
egg recording an owner different from the command message's author is
rejected before `NamePet` is reached: the handler reports the message
handled with the registry unchanged, so no registry mutation occurs and
the targeted entity remains the same egg with unchanged numeric
state. -/
theorem claim_C4_foreign_egg_naming_rejected
    (r : Registry) (evt : Event) (raw : RawParams) (pet : Pet)
    (hwf : raw.wellFormed = true) (hname : raw.name ≠ "")
    (hpid : raw.petID ≠ "")
    (hget : regGet r raw.petID = some pet) (hegg : pet.isEgg = true)
    (howner : pet.ownerPubKey ≠ evt.pubKey) :
    handleNamePetCommand r evt raw = (r, true) ∧
    regGet (handleNamePetCommand r evt raw).1 raw.petID = some pet := by
  have hparse : ParseNamePetParams raw = .ok ⟨raw.petID, raw.name⟩ := by
    unfold ParseNamePetParams
    simp [hwf, hname]
  have hrun : handleNamePetCommand r evt raw = (r, true) := by
    unfold handleNamePetCommand
    rw [hparse]
    simp [hpid, hget, hegg, howner]
  exact ⟨hrun, by rw [hrun]; exact hget⟩

/-- Witness for C4: `"bob"` tries to name `"alice"`'s egg by
`pet_id`. -/
theorem claim_C4_witness :
    handleNamePetCommand [("pk-egg", sampleEgg)] cmdEvt
      ⟨false, true, "pk-egg", "Stolen"⟩ = ([("pk-egg", sampleEgg)], true) ∧
    regGet (handleNamePetCommand [("pk-egg", sampleEgg)] cmdEvt
      ⟨false, true, "pk-egg", "Stolen"⟩).1 "pk-egg" = some sampleEgg :=
  claim_C4_foreign_egg_naming_rejected
    [("pk-egg", sampleEgg)] cmdEvt ⟨false, true, "pk-egg", "Stolen"⟩ sampleEgg
    rfl (by decide) (by decide) (by decide) (by decide) (by decide)

/-- C6 counterexample: an event that passes the command gate and
parses to the unknown command name `"dance"` is NOT treated as handled
(`processTotemCommand` returns `false`), and the message falls through
to target resolution and feeding: the resolved pet's `LastFed` field
changes from 0 to the event-handling time 7. -/
theorem claim_C6_counterexample :
    (processTotemCommand [("pk-rex", sampleActive)] cmdEvt
        (some ⟨"dance", ⟨false, true, "", ""⟩⟩) "sk" "pk" 7).2 = false ∧
    (regGet (totemHandleStoreEvent [("pk-rex", sampleActive)] cmdEvt
        (some ⟨"dance", ⟨false, true, "", ""⟩⟩) "sk" "pk" 7) "pk-rex").map
      (fun p => p.state.lastFed) = some 7 ∧
    sampleActive.state.lastFed = 0 :=
  ⟨rfl, rfl, rfl⟩

/-- C6 amended: for every message passing the command recognition gate
that parses to a command name other than `create_egg` or `name_pet`,
`processTotemCommand` reports the message NOT handled and leaves the
registry unchanged, and `handleStoreEvent` therefore falls through to
target resolution and entity feeding. -/
theorem claim_C6_amended_unknown_commands_fall_through
    (r : Registry) (evt : Event) (cmd : CommandRequest)
    (priv pub : String) (now : ℚ)
    (hkind : evt.kind = KindPetCommand)
    (htag : ValidateCommandTag evt.tags = true)
    (h1 : cmd.name ≠ CmdCreateEgg) (h2 : cmd.name ≠ CmdNamePet) :
    processTotemCommand r evt (some cmd) priv pub now = (r, false) ∧
    totemHandleStoreEvent r evt (some cmd) priv pub now =
      (match findTargetPet r evt with
       | none => r
       | some t => regSet r t.1 (petHandleStoreEvent now t.2)) := by
  have hp : processTotemCommand r evt (some cmd) priv pub now = (r, false) := by
    unfold processTotemCommand
    simp [hkind, htag, h1, h2]
  refine ⟨hp, ?_⟩
  unfold totemHandleStoreEvent
  rw [hp]

/-- Witness for C6's amended claim at a concrete registry and
command-gated event. -/
theorem claim_C6_witness :
    processTotemCommand [("pk-rex", sampleActive)] cmdEvt
      (some ⟨"dance", ⟨false, true, "", ""⟩⟩) "sk" "pk" 7 =
      ([("pk-rex", sampleActive)], false) ∧
    totemHandleStoreEvent [("pk-rex", sampleActive)] cmdEvt
      (some ⟨"dance", ⟨false, true, "", ""⟩⟩) "sk" "pk" 7 =
      (match findTargetPet [("pk-rex", sampleActive)] cmdEvt with
       | none => [("pk-rex", sampleActive)]
       | some t =>
         regSet [("pk-rex", sampleActive)] t.1 (petHandleStoreEvent 7 t.2)) :=
  claim_C6_amended_unknown_commands_fall_through
    [("pk-rex", sampleActive)] cmdEvt ⟨"dance", ⟨false, true, "", ""⟩⟩
    "sk" "pk" 7 rfl (by decide) (by decide) (by decide)

/-- C8: for an active (non-egg) pet, the rejection decision rejects
exactly when happiness is below 50 and the content length exceeds 250;
on rejection the reason is the non-empty grumpy-long-messages string;
otherwise the decision is accept with empty reason.  In particular at
happiness 40 a longer-than-250 message is rejected and at happiness 60
it is accepted. -/
theorem claim_C8_reject_policy (p : Pet) (evt : Event)
    (hp : p.isEgg = false) :
    ((petHandleRejectEvent p evt).1 = true ↔
      p.state.happiness < 50 ∧ 250 < evt.content.length) ∧
    (p.state.happiness < 50 ∧ 250 < evt.content.length →
      petHandleRejectEvent p evt =
        (true, "Pet " ++ p.state.name ++
          " is grumpy and doesn't like long messages") ∧
      (petHandleRejectEvent p evt).2 ≠ "") ∧
    (¬(p.state.happiness < 50 ∧ 250 < evt.content.length) →
      petHandleRejectEvent p evt = (false, "")) ∧
    (p.state.happiness = 40 → 250 < evt.content.length →
      (petHandleRejectEvent p evt).1 = true) ∧
    (p.state.happiness = 60 → (petHandleRejectEvent p evt).1 = false) := by
  by_cases hc : p.state.happiness < 50 ∧ 250 < evt.content.length
  · have hrun : petHandleRejectEvent p evt =
        (true, "Pet " ++ p.state.name ++
          " is grumpy and doesn't like long messages") := by
      unfold petHandleRejectEvent
      simp [hp, hc]
    refine ⟨by simp [hrun, hc], fun _ => ⟨hrun, ?_⟩,
      fun h => absurd hc h, fun _ _ => by simp [hrun], fun h60 => ?_⟩
    · rw [hrun]
      intro habs
      have hlen := congrArg String.length habs
      simp [String.length_append] at hlen
      exact absurd hlen.2 (by decide)
    · exact absurd (hc.1) (by rw [h60]; norm_num)
  · have hrun : petHandleRejectEvent p evt = (false, "") := by
      unfold petHandleRejectEvent
      simp [hp, hc]
    refine ⟨by simp [hrun, hc], fun h => absurd h hc, fun _ => hrun,
      fun h40 hlen => absurd ⟨by rw [h40]; norm_num, hlen⟩ hc,
      fun _ => by simp [hrun]⟩

set_option maxRecDepth 4096 in
/-- Witness for C8: `sampleActive` (happiness 40) with a 251-character
message is rejected with a non-empty reason; the same pet at
happiness 60 yields acceptance via the same theorem. -/
theorem claim_C8_witness :
    petHandleRejectEvent sampleActive
        { cmdEvt with content := String.mk (List.replicate 251 'a') } =
      (true, "Pet " ++ sampleActive.state.name ++
        " is grumpy and doesn't like long messages") ∧
    (petHandleRejectEvent
        { sampleActive with state := { sampleActive.state with happiness := 60 } }
        { cmdEvt with content := String.mk (List.replicate 251 'a') }).1 =
      false := by
  constructor
  · exact ((claim_C8_reject_policy sampleActive
      { cmdEvt with content := String.mk (List.replicate 251 'a') }
      rfl).2.1 (by constructor <;> decide)).1
  · exact (claim_C8_reject_policy
      { sampleActive with state := { sampleActive.state with happiness := 60 } }
      { cmdEvt with content := String.mk (List.replicate 251 'a') }
      rfl).2.2.2.2 (by decide)

/-- C9 counterexample: the egg's feed handler applies no energy nudge
at all: feeding a concrete egg leaves its whole state, including
`Energy`, exactly unchanged, contradicting the claimed minimal energy
nudge. -/
theorem claim_C9_counterexample :
    petHandleStoreEvent 42 sampleEgg = sampleEgg ∧
    (petHandleStoreEvent 42 sampleEgg).state.energy =
      sampleEgg.state.energy := by
  decide

/-- C9 amended: the egg's feed handler is a complete no-op: every state
field, `Energy` included, is unchanged, and the egg does not otherwise
react to the message. -/
theorem claim_C9_amended_egg_feed_is_noop (now : ℚ) (p : Pet)
    (h : p.isEgg = true) :
    petHandleStoreEvent now p = p := by
  unfold petHandleStoreEvent
  simp [h]

/-- Witness for C9's amended claim at a concrete egg. -/
theorem claim_C9_witness :
    petHandleStoreEvent 42 sampleEgg = sampleEgg :=
  claim_C9_amended_egg_feed_is_noop 42 sampleEgg (by decide)

theorem pTagTarget_some {r : Registry} {tags : List (List String)}
    {k : String} {p : Pet} (h : pTagTarget r tags = some (k, p)) :
    regGet r k = some p ∧ ∃ tag ∈ tags, ∃ rest, tag = "p" :: k :: rest := by
  induction tags with
  | nil => simp [pTagTarget] at h
  | cons tag rest ih =>
    rcases tag with _ | ⟨t0, _ | ⟨t1, ttail⟩⟩
    · simp only [pTagTarget] at h
      obtain ⟨hg, tag', hmem, w⟩ := ih h
      exact ⟨hg, tag', List.mem_cons_of_mem _ hmem, w⟩
    · simp only [pTagTarget] at h
      obtain ⟨hg, tag', hmem, w⟩ := ih h
      exact ⟨hg, tag', List.mem_cons_of_mem _ hmem, w⟩
    · by_cases hp : t0 = "p"
      · subst hp
        cases hreg : regGet r t1 with
        | some q =>
          simp only [pTagTarget, if_pos rfl, hreg] at h
          obtain ⟨hk, hq⟩ := Prod.mk.injEq .. ▸ Option.some.inj h
          subst hk
          subst hq
          exact ⟨hreg, _, List.mem_cons_self _ _, ttail, rfl⟩
        | none =>
          simp only [pTagTarget, if_pos rfl, hreg] at h
          obtain ⟨hg, tag', hmem, w⟩ := ih h
          exact ⟨hg, tag', List.mem_cons_of_mem _ hmem, w⟩
      · simp only [pTagTarget, if_neg hp] at h
        obtain ⟨hg, tag', hmem, w⟩ := ih h
        exact ⟨hg, tag', List.mem_cons_of_mem _ hmem, w⟩

theorem pTagTarget_none {r : Registry} {tags : List (List String)}
    (h : pTagTarget r tags = none) :
    ∀ tag ∈ tags, ∀ k rest, tag = "p" :: k :: rest → regGet r k = none := by
  induction tags with
  | nil => simp
  | cons tag rest ih =>
    intro tag' hmem k krest heq
    rcases List.mem_cons.mp hmem with hhead | htail
    · subst hhead
      subst heq
      simp only [pTagTarget, if_pos rfl] at h
      cases hreg : regGet r k with
      | some q => rw [hreg] at h; exact absurd h (by simp)
      | none => rfl
    · rcases tag with _ | ⟨t0, _ | ⟨t1, ttail⟩⟩
      · simp only [pTagTarget] at h
        exact ih h tag' htail k krest heq
      · simp only [pTagTarget] at h
        exact ih h tag' htail k krest heq
      · by_cases hp : t0 = "p"
        · subst hp
          simp only [pTagTarget, if_pos rfl] at h
          cases hreg : regGet r t1 with
          | some q => rw [hreg] at h; exact absurd h (by simp)
          | none =>
            rw [hreg] at h
            exact ih h tag' htail k krest heq
        · simp only [pTagTarget, if_neg hp] at h
          exact ih h tag' htail k krest heq

theorem hasTaggedTarget_of_pTagTarget_some {r : Registry} {evt : Event}
    {k : String} {p : Pet} (h : pTagTarget r evt.tags = some (k, p)) :
    hasTaggedTarget r evt := by
  obtain ⟨hg, tag, hmem, rest, heq⟩ := pTagTarget_some h
  exact ⟨tag, hmem, k, rest, heq, by rw [hg]; rfl⟩

/-- C5: `findTargetPet` applies the strict priority order: (1) an
entity named by some `p` tag; (2) otherwise an entity owned by the
message author; (3) otherwise a non-egg entity; (4) otherwise, on a
non-empty registry, some entity; (5) none on an empty registry. -/
theorem claim_C5_target_resolution_priority (r : Registry) (evt : Event) :
    (hasTaggedTarget r evt →
      ∃ k p, findTargetPet r evt = some (k, p) ∧ regGet r k = some p ∧
        ∃ tag ∈ evt.tags, ∃ rest, tag = "p" :: k :: rest) ∧
    (¬hasTaggedTarget r evt →
      (∃ e ∈ r, (Prod.snd e).ownerPubKey = evt.pubKey) →
      ∃ k p, findTargetPet r evt = some (k, p) ∧ (k, p) ∈ r ∧
        p.ownerPubKey = evt.pubKey) ∧
    (¬hasTaggedTarget r evt →
      (∀ e ∈ r, (Prod.snd e).ownerPubKey ≠ evt.pubKey) →
      (∃ e ∈ r, (Prod.snd e).isEgg = false) →
      ∃ k p, findTargetPet r evt = some (k, p) ∧ (k, p) ∈ r ∧
        p.isEgg = false) ∧
    (r ≠ [] → ∃ k p, findTargetPet r evt = some (k, p) ∧ (k, p) ∈ r) ∧
    (r = [] → findTargetPet r evt = none) := by
  have hnone : ¬hasTaggedTarget r evt → pTagTarget r evt.tags = none := by
    intro hno
    cases h : pTagTarget r evt.tags with
    | none => rfl
    | some t =>
      obtain ⟨k, p⟩ := t
      exact absurd (hasTaggedTarget_of_pTagTarget_some h) hno
  refine ⟨?_, ?_, ?_, ?_, ?_⟩
  · intro htag
    cases h : pTagTarget r evt.tags with
    | none =>
      obtain ⟨tag, hmem, k, rest, heq, hsome⟩ := htag
      have := pTagTarget_none h tag hmem k rest heq
      rw [this] at hsome
      exact absurd hsome (by simp)
    | some t =>
      obtain ⟨k, p⟩ := t
      obtain ⟨hg, w⟩ := pTagTarget_some h
      exact ⟨k, p, by unfold findTargetPet; rw [h], hg, w⟩
  · intro hno hown
    have h1 := hnone hno
    obtain ⟨e, hmem, heq⟩ := hown
    have hsome : (r.find? fun e => e.2.ownerPubKey == evt.pubKey).isSome := by
      rw [List.find?_isSome]
      exact ⟨e, hmem, by simpa using heq⟩
    obtain ⟨e', he'⟩ := Option.isSome_iff_exists.mp hsome
    obtain ⟨k, p⟩ := e'
    refine ⟨k, p, by unfold findTargetPet; rw [h1, he'], ?_, ?_⟩
    · exact List.mem_of_find?_eq_some he'
    · simpa using List.find?_some he'
  · intro hno hownall hnonegg
    have h1 := hnone hno
    have h2 : (r.find? fun e => e.2.ownerPubKey == evt.pubKey) = none := by
      rw [List.find?_eq_none]
      intro e hmem
      simpa using hownall e hmem
    obtain ⟨e, hmem, heq⟩ := hnonegg
    have hsome : (r.find? fun e => !e.2.isEgg).isSome := by
      rw [List.find?_isSome]
      exact ⟨e, hmem, by simpa using heq⟩
    obtain ⟨e', he'⟩ := Option.isSome_iff_exists.mp hsome
    obtain ⟨k, p⟩ := e'
    refine ⟨k, p, by unfold findTargetPet; rw [h1, h2, he'], ?_, ?_⟩
    · exact List.mem_of_find?_eq_some he'
    · simpa using List.find?_some he'
  · intro hne
    cases h : pTagTarget r evt.tags with
    | some t =>
      obtain ⟨k, p⟩ := t
      obtain ⟨hg, -⟩ := pTagTarget_some h
      exact ⟨k, p, by unfold findTargetPet; rw [h],
        mem_of_regGet_eq_some hg⟩
    | none =>
      cases h2 : (r.find? fun e => e.2.ownerPubKey == evt.pubKey) with
      | some e =>
        obtain ⟨k, p⟩ := e
        exact ⟨k, p, by unfold findTargetPet; rw [h, h2],
          List.mem_of_find?_eq_some h2⟩
      | none =>
        cases h3 : (r.find? fun e => !e.2.isEgg) with
        | some e =>
          obtain ⟨k, p⟩ := e
          exact ⟨k, p, by unfold findTargetPet; rw [h, h2, h3],
            List.mem_of_find?_eq_some h3⟩
        | none =>
          match r, hne with
          | e :: rest, _ =>
            obtain ⟨k, p⟩ := e
            exact ⟨k, p, by unfold findTargetPet; rw [h, h2, h3]; rfl,
              List.mem_cons_self _ _⟩
  · intro hr
    subst hr
    have h1 : pTagTarget ([] : Registry) evt.tags = none := by
      cases h : pTagTarget ([] : Registry) evt.tags with
      | none => rfl
      | some t =>
        obtain ⟨k, p⟩ := t
        obtain ⟨hg, -⟩ := pTagTarget_some h
        simp [regGet] at hg
    unfold findTargetPet
    rw [h1]
    rfl

/-- Witness for C5: clause (1) at a concrete registry and a concrete
p-tagged event. -/
theorem claim_C5_witness :
    ∃ k p, findTargetPet [("pk-rex", sampleActive)] pTagEvt = some (k, p) ∧
      regGet [("pk-rex", sampleActive)] k = some p ∧
      ∃ tag ∈ pTagEvt.tags, ∃ rest, tag = "p" :: k :: rest :=
  (claim_C5_target_resolution_priority [("pk-rex", sampleActive)] pTagEvt).1
    ⟨["p", "pk-rex"], by decide, "pk-rex", [], rfl, by decide⟩

end Totem
